import Mathlib

/-!
Shallow embedding of `docsify-github-tracker.js` (a Docsify plugin that
fetches GitHub repository events, filters them by date, caches rendered
results and splices them back into the document).  The repository ships
three historical versions of the plugin in one file; we embed the parts
the verified properties talk about:

* the directive-line parser inside `parseGithubTracker`;
* `parseDateTime`, `filterEventsByDate` and the inline copy of the date
  filter inside the second version's `fetchEvents`;
* `getCacheKey` and `formatHeader` (second version);
* `cache.get` of the second and third versions, with the network effect
  made explicit (the pair returned carries the number of network
  requests the lookup issued);
* `fetchEvents` of the second and third versions, with the cache writes
  made explicit (the pair returned carries the list of `cache.set`
  key/value pairs issued);
* the replacement loop of `githubTracker` that splices rendered output
  over the raw directive blocks.

Document text is modelled as `List Char`.  JavaScript `Number`,
`parseInt`, `Date.UTC` (including its out-of-range rollover and its
two-digit-year remapping) and the truthiness coercions the code relies
on are modelled explicitly.  Locale-dependent renderers
(`toLocaleString`, `toLocaleDateString`) and the per-event formatter
`formatEvent` (whose output is locale-dependent and which no verified
property inspects) are taken as function parameters.
-/

namespace Tracker

/-- The character list underlying a string literal. -/
def chars (s : String) : List Char := s.data

/-- Whitespace recognised by the trims in the source (the common ASCII
whitespace; the exotic Unicode whitespace JavaScript also trims never
occurs in the repository's inputs). -/
def isWsChar (c : Char) : Bool := c = ' ' ∨ c = '\t' ∨ c = '\n' ∨ c = '\r'

/-- `String.prototype.trim`: drop leading and trailing whitespace. -/
def trimChars (l : List Char) : List Char :=
  ((l.dropWhile isWsChar).reverse.dropWhile isWsChar).reverse

/-- `String.prototype.split` with a one-character separator, as used by
`line.split(':')` and `dateStr.split('/')` in the source. -/
def splitOnChar (c : Char) : List Char → List (List Char)
  | [] => [[]]
  | x :: xs =>
    let r := splitOnChar c xs
    if x = c then [] :: r
    else
      match r with
      | [] => [[x]]
      | h :: t => (x :: h) :: t

/-- Value of a list of decimal digits. -/
def digitsToNat (l : List Char) : Nat :=
  l.foldl (fun a c => a * 10 + (c.toNat - '0'.toNat)) 0

/-- JavaScript `Number(s)` restricted to the literal shapes the plugin
ever receives: optional-sign decimal integers, with surrounding
whitespace, and the empty/whitespace string (which converts to `0`).
`none` stands for `NaN`.  Fractional, exponent, hexadecimal and
`Infinity` literals are outside the repository's input language and are
mapped to `NaN` here. -/
def jsNumber (l : List Char) : Option Int :=
  let t := trimChars l
  if t = [] then some 0
  else if t.all Char.isDigit then some (digitsToNat t : Int)
  else
    match t with
    | '-' :: rest =>
      if rest ≠ [] ∧ rest.all Char.isDigit then some (-(digitsToNat rest : Int)) else none
    | '+' :: rest =>
      if rest ≠ [] ∧ rest.all Char.isDigit then some ((digitsToNat rest : Int)) else none
    | _ => none

/-- JavaScript `parseInt(s)`: skip whitespace, optional sign, then the
longest leading run of decimal digits; `none` stands for `NaN`. -/
def jsParseInt (l : List Char) : Option Int :=
  let lead : List Char → Option Int := fun t =>
    let ds := t.takeWhile Char.isDigit
    if ds = [] then none else some (digitsToNat ds : Int)
  let t := trimChars l
  match t with
  | '-' :: rest => (lead rest).map (fun n => -n)
  | '+' :: rest => lead rest
  | _ => lead t

/-- Decimal rendering of a natural number (JavaScript template-string
interpolation of `response.status`). -/
def natToChars (n : Nat) : List Char := Nat.toDigits 10 n

/-- Days between a proleptic-Gregorian civil date and 1970-01-01
(Howard Hinnant's `days_from_civil`, the arithmetic behind ECMAScript
`MakeDay`).  `m` is 1-based. -/
def daysFromCivil (y m d : Int) : Int :=
  let y' := if m ≤ 2 then y - 1 else y
  let era := Int.fdiv y' 400
  let yoe := y' - era * 400
  let doy := Int.fdiv (153 * (if 2 < m then m - 3 else m + 9) + 2) 5 + (d - 1)
  let doe := yoe * 365 + Int.fdiv yoe 4 - Int.fdiv yoe 100 + doy
  era * 146097 + doe - 719468

/-- ECMAScript `Date.UTC(year, month, day)` on integer arguments:
years 0..99 are remapped to 1900..1999, the 0-based `month` rolls over
into the year (`floor` division), the day offsets freely, and the
result is the epoch-millisecond instant, or `none` (an invalid time
value, `NaN`) when it exceeds the ±8.64e15 clip. -/
def jsDateUTC (year month day : Int) : Option Int :=
  let yr := if 0 ≤ year ∧ year ≤ 99 then 1900 + year else year
  let ym := yr + Int.fdiv month 12
  let mn := Int.fmod month 12
  let t := daysFromCivil ym (mn + 1) day * 86400000
  if t.natAbs ≤ 8640000000000000 then some t else none

/-- `parseDateTime` (second version, lines 320–349): split on `/`, map
`Number` over the parts, destructure the first three components, throw
(return `null`) when any is falsy (`NaN`, missing, or `0`), otherwise
build `Date.UTC(year, month - 1, day)` and throw when that instant is
invalid. -/
def parseDateTime (l : List Char) : Option Int :=
  let ps := (splitOnChar '/' l).map jsNumber
  match ps.getD 0 none, ps.getD 1 none, ps.getD 2 none with
  | some y, some m, some d =>
    if y = 0 ∨ m = 0 ∨ d = 0 then none else jsDateUTC y (m - 1) d
  | _, _, _ => none

/-- JavaScript truthiness of an optional string configuration value:
`undefined` and the empty string are falsy. -/
def truthyS : Option (List Char) → Bool
  | none => false
  | some s => s ≠ []

/-- A raw GitHub event, reduced to the one field the verified
properties inspect: `createdAt` is the epoch-millisecond instant
denoted by the event's `created_at` field, i.e. the value of
`new Date(event.created_at).getTime()`.  The remaining fields only
feed the abstracted per-event formatter. -/
structure Event where
  createdAt : Int
deriving DecidableEq

/-- `filterEventsByDate` (second version, lines 351–376).  Faithful to
the JavaScript coercions: when `parseDateTime` returns `null`, the
comparison `eventTime >= null` coerces `null` to `0`, and
`null + 86400000` evaluates to `86400000`.  `none` for the stop bound
stands for `Infinity`. -/
def filterEventsByDate (events : List Event) (start stop : Option (List Char)) :
    List Event :=
  if ¬ truthyS start ∧ ¬ truthyS stop then events
  else
    let startTime : Int :=
      if truthyS start then (parseDateTime (start.getD [])).getD 0 else 0
    let stopTime : Option Int :=
      if truthyS stop then some ((parseDateTime (stop.getD [])).getD 0 + 86400000)
      else none
    events.filter fun e =>
      decide (startTime ≤ e.createdAt) &&
        (match stopTime with
         | none => true
         | some st => decide (e.createdAt < st))

/-- The inline copy of the date filter inside the second version's
`fetchEvents` (lines 402–411): same arithmetic, guarded by
`start || stop` instead of an early return. -/
def filterInline (allEvents : List Event) (start stop : Option (List Char)) :
    List Event :=
  if truthyS start || truthyS stop then
    let startTime : Int :=
      if truthyS start then (parseDateTime (start.getD [])).getD 0 else 0
    let stopTime : Option Int :=
      if truthyS stop then some ((parseDateTime (stop.getD [])).getD 0 + 86400000)
      else none
    allEvents.filter fun e =>
      decide (startTime ≤ e.createdAt) &&
        (match stopTime with
         | none => true
         | some st => decide (e.createdAt < st))
  else allEvents

/-- `getCacheKey` (second version, lines 378–385): the date bounds are
appended only when **both** are truthy. -/
def getCacheKey (user repo : List Char) (start stop : Option (List Char)) :
    List Char :=
  let key := chars "gh-tracker-" ++ user ++ ('-' :: repo)
  if truthyS start && truthyS stop then
    key ++ ('-' :: start.getD []) ++ ('-' :: stop.getD [])
  else key

/-- `formatHeader` (second version, lines 299–318).  `localeDate`
stands for `new Date(t).toLocaleDateString()`, whose output depends on
the host locale.  Faithful quirk: the inner guard `startTime && stopTime`
treats the numeric timestamp `0` as falsy. -/
def formatHeader (localeDate : Int → List Char) (user repo : List Char)
    (start stop : Option (List Char)) : List Char :=
  let repoUrl := chars "https://github.com/" ++ user ++ ('/' :: repo)
  let userUrl := chars "https://github.com/" ++ user
  let base := chars "## Repository: [" ++ repo ++ chars "](" ++ repoUrl ++
    chars ") by [" ++ user ++ chars "](" ++ userUrl ++ chars ")"
  let withMid :=
    if truthyS start && truthyS stop then
      match parseDateTime (start.getD []), parseDateTime (stop.getD []) with
      | some a, some b =>
        if a ≠ 0 ∧ b ≠ 0 then
          base ++ chars "\nEvents from " ++ localeDate a ++ chars " to " ++
            localeDate b
        else base
      | _, _ => base
    else base ++ chars "\nLatest events"
  withMid ++ chars "\n\n"

/-- A cache record as persisted by `cache.set`: rendered text, store
time, and the optional `ETag` revalidation token.  (The stored records
have no rate-limit marking of any kind.) -/
structure StoredItem where
  data : List Char
  timestamp : Int
  etag : Option (List Char)
deriving DecidableEq

/-- Outcome of the conditional revalidation request a cache lookup
issues (`fetch` of the repository metadata with `If-None-Match`). -/
inductive CondNet
  | status (code : Nat)
  | failed
deriving DecidableEq

/-- `defaultOptions.cacheTime` = 5 minutes, in milliseconds. -/
def cacheTime : Int := 300000

/-- `cache.get` of the third version (lines 481–511), with the network
effect explicit: the second component counts the network requests the
lookup issued.  Decision order: absent item → `null`; stale item
(age > `cacheTime`) → removed, `null`; otherwise one conditional
request is always issued — a non-`304` status invalidates (`null`), a
`304` returns the stored text, and a network failure falls back to the
stored text. -/
def cacheGet_v3 (item : Option StoredItem) (now : Int) (net : CondNet) :
    Option (List Char) × Nat :=
  match item with
  | none => (none, 0)
  | some it =>
    if cacheTime < now - it.timestamp then (none, 0)
    else
      match net with
      | .status code => if code = 304 then (some it.data, 1) else (none, 1)
      | .failed => (some it.data, 1)

/-- `cache.get` of the second version (lines 162–192): no up-front
freshness check; one conditional request is always issued — a non-`304`
status invalidates, a `304` returns the stored text, and on a network
failure the stored text is returned only while younger than
`cacheTime`. -/
def cacheGet_v2 (item : Option StoredItem) (now : Int) (net : CondNet) :
    Option (List Char) × Nat :=
  match item with
  | none => (none, 0)
  | some it =>
    match net with
    | .status code => if code = 304 then (some it.data, 1) else (none, 1)
    | .failed =>
      if cacheTime < now - it.timestamp then (none, 1) else (some it.data, 1)

/-- `Array.prototype.join('\n')`. -/
def joinLines : List (List Char) → List Char
  | [] => []
  | [x] => x
  | x :: y :: xs => x ++ '\n' :: joinLines (y :: xs)

/-- Remote outcome seen by the second version's `fetchEvents`, which
never checks `response.ok`: either the body parsed as an array of
events, or something threw after the fetch (a rejected `json()` call,
or `.filter` applied to a non-array body), or the fetch itself
rejected.  The carried message is the thrown error's `message`. -/
inductive V2Net
  | goodJson (events : List Event)
  | badJson (errMsg : List Char)
  | netErr (errMsg : List Char)

/-- `fetchEvents` of the second version (lines 387–428), as a pure
function of the resolved cache lookup and the remote outcome.  The
result pairs the returned text with the list of `cache.set` key/value
writes the call issued.  `fmt` stands for `formatEvent` (second
version), whose locale-dependent output no verified property
inspects. -/
def fetchEvents_v2 (localeDate : Int → List Char) (fmt : Event → List Char)
    (user repo : List Char) (start stop : Option (List Char))
    (cached : Option (List Char)) (net : V2Net) :
    List Char × List (List Char × List Char) :=
  let cacheKey := getCacheKey user repo start stop
  match cached with
  | some c => (c, [])
  | none =>
    match net with
    | .netErr msg =>
      (formatHeader localeDate user repo start stop ++ chars "Error: " ++ msg, [])
    | .badJson msg =>
      (formatHeader localeDate user repo start stop ++ chars "Error: " ++ msg, [])
    | .goodJson allEvents =>
      let filteredEvents := filterInline allEvents start stop
      let header := formatHeader localeDate user repo start stop
      if filteredEvents = [] then
        let noEvents := header ++ chars "No events found in specified date range"
        (noEvents, [(cacheKey, noEvents)])
      else
        let formatted :=
          header ++ joinLines ((filteredEvents.map fmt).filter (· ≠ []))
        (formatted, [(cacheKey, formatted)])

/-- The rate-limit headers the third version reads.  `limitH` is only
logged by the source. -/
structure RlHeaders where
  limitH : Option (List Char)
  remaining : Option (List Char)
  reset : Option (List Char)
deriving DecidableEq

/-- Body outcome after a resolved fetch in the third version: an array
of events, or a throw from `json()` / `events.map`. -/
inductive V3Body
  | eventsArr (events : List Event)
  | bad (errMsg : List Char)

/-- Remote outcome seen by the third version's `fetchEvents`. -/
inductive V3Net
  | resp (status : Nat) (hdrs : RlHeaders) (body : V3Body)
  | netFail (errMsg : List Char)

/-- `headers.get('X-RateLimit-Reset') * 1000`: a `null` header coerces
to `0`, a non-numeric header to `NaN` (`none`). -/
def jsResetMs (h : Option (List Char)) : Option Int :=
  match h with
  | none => some 0
  | some s => (jsNumber s).map (· * 1000)

/-- `fetchEvents` of the third version (lines 614–661), as a pure
function of the resolved cache lookup and the remote outcome; the
result pairs the returned text with the `cache.set` writes issued.
`localeD` stands for `new Date(ms).toLocaleString()` (with `none` for
an invalid date); `fmt` stands for the third version's
`formatEvent`. -/
def fetchEvents_v3 (localeD : Option Int → List Char) (fmt : Event → List Char)
    (user repo : List Char) (cached : Option (List Char)) (net : V3Net) :
    List Char × List (List Char × List Char) :=
  let cacheKey := chars "gh-tracker-" ++ user ++ ('-' :: repo)
  match cached with
  | some c => (c, [])
  | none =>
    match net with
    | .netFail msg => (chars "Error fetching GitHub events: " ++ msg, [])
    | .resp status hdrs body =>
      let resetMs := jsResetMs hdrs.reset
      if ¬ (200 ≤ status ∧ status ≤ 299) then
        if status = 403 ∧ hdrs.remaining = some (chars "0") then
          (chars "GitHub API rate limit exceeded. Resets at " ++ localeD resetMs,
            [])
        else
          (chars "Error fetching GitHub events: GitHub API error: " ++
            natToChars status, [])
      else
        match body with
        | .bad msg => (chars "Error fetching GitHub events: " ++ msg, [])
        | .eventsArr events =>
          let formatted := joinLines ((events.map fmt).filter (· ≠ []))
          let writes := if formatted ≠ [] then [(cacheKey, formatted)] else []
          let lowQuota :=
            match hdrs.remaining with
            | none => false
            | some s =>
              match jsParseInt s with
              | none => false
              | some n => decide (n < 10)
          if lowQuota then
            let remStr := hdrs.remaining.getD (chars "null")
            (chars "> ⚠️ GitHub API rate limit: " ++ remStr ++
              chars " requests remaining. Resets at " ++ localeD resetMs ++
              chars "\n\n" ++ formatted, writes)
          else
            (if formatted ≠ [] then formatted else chars "No events found", writes)

/-- One directive line of a `githubtracker` block (lines 232–247):
`line.split(':')` is trimmed component-wise, the first two components
are destructured into key and value, and the pair is kept only when
both are truthy (non-empty). -/
def parseDirectiveLine (line : List Char) : Option (List Char × List Char) :=
  match (splitOnChar ':' line).map trimChars with
  | k :: v :: _ => if k ≠ [] ∧ v ≠ [] then some (k, v) else none
  | _ => none

/-- JavaScript `config[key] = value` on a configuration record modelled
as an association list: overwrite the existing binding or append. -/
def setConfig (cfg : List (List Char × List Char)) (k v : List Char) :
    List (List Char × List Char) :=
  if cfg.any (fun p => p.1 = k) then
    cfg.map (fun p => if p.1 = k then (k, v) else p)
  else cfg ++ [(k, v)]

/-- Effect of one directive line on the configuration record. -/
def applyDirectiveLine (cfg : List (List Char × List Char)) (line : List Char) :
    List (List Char × List Char) :=
  match parseDirectiveLine line with
  | none => cfg
  | some (k, v) => setConfig cfg k v

/-- Boolean prefix test on character lists. -/
def prefChk : List Char → List Char → Bool
  | [], _ => true
  | _ :: _, [] => false
  | a :: as, b :: bs => a = b && prefChk as bs

/-- Split a list at the first occurrence of `pat`:
`splitFirst pat s = some (pre, post)` with `s = pre ++ pat ++ post` and
no occurrence of `pat` starting inside `pre`.  (`indexOf` of the empty
pattern is `0`, as in JavaScript.) -/
def splitFirst (pat : List Char) : List Char → Option (List Char × List Char)
  | [] => if pat = [] then some ([], []) else none
  | c :: cs =>
    if prefChk pat (c :: cs) then some ([], (c :: cs).drop pat.length)
    else (splitFirst pat cs).map (fun pq => (c :: pq.1, pq.2))

/-- `String.prototype.replace` with a string pattern: replace the first
occurrence only.  (ECMAScript `$`-substitution patterns in the
replacement are not modelled; no rendered output the plugin produces is
interpreted that way by any verified property.) -/
def jsReplaceFirst (s pat rep : List Char) : List Char :=
  match splitFirst pat s with
  | none => s
  | some (p, q) => p ++ rep ++ q

/-- The replacement loop of `githubTracker` (second version, lines
449–456): fold the fetched results over the document, replacing the
first occurrence of each tracker's raw block when both the raw text and
the rendered text are truthy.  `Promise.all` preserves the order of the
parsed trackers. -/
def applyResults (content : List Char)
    (results : List (List Char × List Char)) : List Char :=
  results.foldl
    (fun acc r => if r.2 ≠ [] ∧ r.1 ≠ [] then jsReplaceFirst acc r.1 r.2 else acc)
    content

/-- Modelled from the spec: a “valid calendar date” as the spec's
parsing invariant demands it — non-zero positive year, month in 1..12,
day within the Gregorian month length.  This definition follows the
spec's words (not the source) and exists to be compared with what
`parseDateTime` actually accepts. -/
def specIsLeapYear (y : Int) : Bool :=
  (y % 4 = 0 ∧ y % 100 ≠ 0) ∨ y % 400 = 0

/-- Modelled from the spec: days in a Gregorian month (companion to
`specIsLeapYear`, used only to state the spec's validity predicate). -/
def specDaysInMonth (y m : Int) : Int :=
  if m = 2 then (if specIsLeapYear y then 29 else 28)
  else if m = 4 ∨ m = 6 ∨ m = 9 ∨ m = 11 then 30
  else 31

/-- Modelled from the spec: the spec's calendar-validity predicate. -/
def specValidCalendarDate (y m d : Int) : Bool :=
  0 < y ∧ 1 ≤ m ∧ m ≤ 12 ∧ 1 ≤ d ∧ d ≤ specDaysInMonth y m

/-! ## Helper lemmas -/

theorem prefChk_append_self (p x : List Char) : prefChk p (p ++ x) = true := by
  induction p with
  | nil => rfl
  | cons c cs ih => simp [prefChk, ih]

/-- `splitFirst` finds the designated occurrence when no occurrence of
the pattern starts strictly earlier. -/
theorem splitFirst_firstOccurrence (pat A X : List Char) (hp : pat ≠ [])
    (h : ∀ i < A.length, prefChk pat ((A ++ pat ++ X).drop i) = false) :
    splitFirst pat (A ++ pat ++ X) = some (A, X) := by
  induction A with
  | nil =>
    rcases pat with _ | ⟨c, cs⟩
    · exact absurd rfl hp
    · show splitFirst (c :: cs) (c :: (cs ++ X)) = some ([], X)
      have hpre : prefChk (c :: cs) (c :: (cs ++ X)) = true := by
        simp [prefChk, prefChk_append_self]
      simp only [splitFirst, hpre, if_true]
      simp [List.drop_succ_cons, List.drop_left]
  | cons a A' ih =>
    show splitFirst pat (a :: (A' ++ pat ++ X)) = some (a :: A', X)
    have h0 : prefChk pat (a :: (A' ++ pat ++ X)) = false := by
      have := h 0 (by simp)
      simpa using this
    have hrec : splitFirst pat (A' ++ pat ++ X) = some (A', X) := by
      refine ih ?_
      intro i hi
      have := h (i + 1) (by simpa using Nat.succ_lt_succ hi)
      simpa using this
    simp only [splitFirst, h0, Bool.false_eq_true, if_false, hrec]
    rfl

/-! ## The claims -/

/-- Claim C1: with a parseable start date and a parseable stop date,
the date filter (both the standalone `filterEventsByDate` and the
inline copy inside `fetchEvents`) keeps exactly the events whose
instant `t` satisfies `start ≤ t < stopMidnight + one day`; in
particular an event at the stop day's 23:59:59.999 UTC is kept and one
at the following UTC midnight is dropped. -/
theorem c1_date_filter_half_open (events : List Event) (s₁ s₂ : List Char)
    (st sp : Int) (h₁ : parseDateTime s₁ = some st)
    (h₂ : parseDateTime s₂ = some sp) :
    filterEventsByDate events (some s₁) (some s₂) =
      events.filter
        (fun e => decide (st ≤ e.createdAt) && decide (e.createdAt < sp + 86400000)) ∧
    filterInline events (some s₁) (some s₂) =
      events.filter
        (fun e => decide (st ≤ e.createdAt) && decide (e.createdAt < sp + 86400000)) ∧
    (∀ e ∈ events, e.createdAt = sp + 86399999 → st ≤ e.createdAt →
      e ∈ filterEventsByDate events (some s₁) (some s₂)) ∧
    (∀ e : Event, e.createdAt = sp + 86400000 →
      e ∉ filterEventsByDate events (some s₁) (some s₂)) := by
  have hne₁ : s₁ ≠ [] := by
    rintro rfl
    rw [show parseDateTime [] = none from rfl] at h₁
    cases h₁
  have hne₂ : s₂ ≠ [] := by
    rintro rfl
    rw [show parseDateTime [] = none from rfl] at h₂
    cases h₂
  have hA : filterEventsByDate events (some s₁) (some s₂) =
      events.filter
        (fun e => decide (st ≤ e.createdAt) && decide (e.createdAt < sp + 86400000)) := by
    simp [filterEventsByDate, truthyS, hne₁, hne₂, h₁, h₂]
  have hB : filterInline events (some s₁) (some s₂) =
      events.filter
        (fun e => decide (st ≤ e.createdAt) && decide (e.createdAt < sp + 86400000)) := by
    simp [filterInline, truthyS, hne₁, hne₂, h₁, h₂]
  refine ⟨hA, hB, ?_, ?_⟩
  · intro e he hcreated hge
    rw [hA]
    refine List.mem_filter.mpr ⟨he, ?_⟩
    simp only [Bool.and_eq_true, decide_eq_true_eq]
    omega
  · intro e hcreated hmem
    rw [hA] at hmem
    have := (List.mem_filter.mp hmem).2
    simp only [Bool.and_eq_true, decide_eq_true_eq] at this
    omega

/-- Claim C1 witness: with start `2025/01/18` and stop `2025/01/20`, an
event at `2025-01-20T23:59:59.999Z` is kept while one at
`2025-01-21T00:00:00.000Z` is dropped. -/
theorem c1_date_filter_half_open_witness :
    filterEventsByDate [⟨1737417599999⟩, ⟨1737417600000⟩]
        (some (chars "2025/01/18")) (some (chars "2025/01/20")) =
      [⟨1737417599999⟩] := by
  have h := c1_date_filter_half_open [⟨1737417599999⟩, ⟨1737417600000⟩]
    (chars "2025/01/18") (chars "2025/01/20") 1737158400000 1737331200000
    (by decide) (by decide)
  rw [h.1]
  decide

/-- Claim C2 (code bug): the cache key of a query with only a start
bound collides with the unfiltered query's key — `getCacheKey` appends
the dates only when both bounds are truthy — even though the filtering
path does activate on a lone start bound (the conjoined filter
evaluation drops an out-of-range event under that same
configuration). -/
theorem c2_start_only_key_collision :
    getCacheKey (chars "gllmar") (chars "docsify-github-tracker")
        (some (chars "2025/01/18")) none =
      getCacheKey (chars "gllmar") (chars "docsify-github-tracker") none none ∧
    filterEventsByDate [⟨0⟩] (some (chars "2025/01/18")) none = [] := by
  decide

/-- Claim C3 counterexample: `parseDateTime` accepts the
calendar-invalid literal `2025/13/01` — month 13 rolls over to January
2026 instead of being rejected — so “succeeds only on valid calendar
dates” is false of the code. -/
theorem c3_rejects_invalid_counterexample :
    parseDateTime (chars "2025/13/01") = some 1767225600000 ∧
    specValidCalendarDate 2025 13 1 = false ∧
    parseDateTime (chars "2026/01/01") = some 1767225600000 := by
  decide

/-- Claim C3 (amended): `parseDateTime` succeeds only if the first
three `/`-components convert to non-zero numbers (components past the
third are ignored), and the produced instant is exactly
`Date.UTC(year, month − 1, day)` — which rolls calendar-invalid
combinations over instead of rejecting them. -/
theorem c3_parse_success_shape (s : List Char) (t : Int)
    (h : parseDateTime s = some t) :
    ∃ y m d,
      ((splitOnChar '/' s).map jsNumber).getD 0 none = some y ∧
      ((splitOnChar '/' s).map jsNumber).getD 1 none = some m ∧
      ((splitOnChar '/' s).map jsNumber).getD 2 none = some d ∧
      y ≠ 0 ∧ m ≠ 0 ∧ d ≠ 0 ∧ jsDateUTC y (m - 1) d = some t := by
  simp only [parseDateTime] at h
  rcases h0 : ((splitOnChar '/' s).map jsNumber).getD 0 none with _ | y <;>
    rw [h0] at h
  · cases h
  rcases h1 : ((splitOnChar '/' s).map jsNumber).getD 1 none with _ | m <;>
    rw [h1] at h
  · cases h
  rcases h2 : ((splitOnChar '/' s).map jsNumber).getD 2 none with _ | d <;>
    rw [h2] at h
  · cases h
  simp only at h
  by_cases hz : y = 0 ∨ m = 0 ∨ d = 0
  · rw [if_pos hz] at h
    cases h
  · rw [if_neg hz] at h
    push_neg at hz
    exact ⟨y, m, d, rfl, rfl, rfl, hz.1, hz.2.1, hz.2.2, h⟩

/-- Claim C3 witness: the amended success shape, instantiated at the
month-13 literal. -/
theorem c3_parse_success_shape_witness :
    ∃ y m d,
      ((splitOnChar '/' (chars "2025/13/01")).map jsNumber).getD 0 none = some y ∧
      ((splitOnChar '/' (chars "2025/13/01")).map jsNumber).getD 1 none = some m ∧
      ((splitOnChar '/' (chars "2025/13/01")).map jsNumber).getD 2 none = some d ∧
      y ≠ 0 ∧ m ≠ 0 ∧ d ≠ 0 ∧ jsDateUTC y (m - 1) d = some 1767225600000 :=
  c3_parse_success_shape (chars "2025/13/01") 1767225600000 (by decide)

/-- Claim C4 (code bug): a malformed stop bound does **not** fall back
to “no upper bound”: `parseDateTime` returns `null`, and the code
computes `null + 86400000 = 86400000`, so the filter drops a 2023 event
that the genuinely-absent-stop configuration keeps. -/
theorem c4_malformed_stop_not_absent :
    parseDateTime (chars "2025/0/1") = none ∧
    filterEventsByDate [⟨1700000000000⟩] none (some (chars "2025/0/1")) = [] ∧
    filterEventsByDate [⟨1700000000000⟩] none none = [⟨1700000000000⟩] := by
  decide

/-- Claim C5 counterexample: a lookup that decides to return the
stored rendered text has nevertheless issued a network request — the
conditional revalidation call — in both cited versions of `cache.get`;
“no network request of any kind is issued during the lookup” is false
of the code. -/
theorem c5_lookup_issues_network_counterexample :
    cacheGet_v3 (some ⟨chars "cached text", 0, some (chars "etag")⟩) 0
        (.status 304) = (some (chars "cached text"), 1) ∧
    cacheGet_v2 (some ⟨chars "cached text", 0, some (chars "etag")⟩) 0
        (.status 304) = (some (chars "cached text"), 1) := by
  decide

/-- Claim C5 (amended): whenever either version's `cache.get` decides
to return a stored entry, the returned text is the stored rendered
text and the lookup has issued exactly one conditional network
request; the stored records carry no rate-limited marking, so no
network-free rate-limit override path exists. -/
theorem c5_lookup_shape (it : StoredItem) (now : Int) (net net₂ : CondNet)
    (s s₂ : List Char)
    (h : (cacheGet_v3 (some it) now net).1 = some s)
    (h₂ : (cacheGet_v2 (some it) now net₂).1 = some s₂) :
    s = it.data ∧ (cacheGet_v3 (some it) now net).2 = 1 ∧
    s₂ = it.data ∧ (cacheGet_v2 (some it) now net₂).2 = 1 := by
  rcases net with code | _ <;> rcases net₂ with code₂ | _ <;>
    simp only [cacheGet_v3, cacheGet_v2] at h h₂ ⊢ <;>
    split_ifs at h h₂ ⊢ <;> simp_all

/-- Claim C5 witness: the amended lookup shape at a concrete fresh
entry, for a `304` revalidation (v3) and a failed revalidation
fallback (v2). -/
theorem c5_lookup_shape_witness :
    chars "d" = (⟨chars "d", 0, none⟩ : StoredItem).data ∧
    (cacheGet_v3 (some ⟨chars "d", 0, none⟩) 7 (.status 304)).2 = 1 ∧
    chars "d" = (⟨chars "d", 0, none⟩ : StoredItem).data ∧
    (cacheGet_v2 (some ⟨chars "d", 0, none⟩) 7 .failed).2 = 1 :=
  c5_lookup_shape ⟨chars "d", 0, none⟩ 7 (.status 304) .failed
    (chars "d") (chars "d") (by decide) (by decide)

/-- Claim C6 counterexample: on a `403` with remaining-quota header
`"0"`, the third version's `fetchEvents` returns the rate-limit
message but performs **no** cache write — the “stores a rate-limited
placeholder cache entry” part of the claim is false of the code. -/
theorem c6_rate_limit_uncached_counterexample :
    fetchEvents_v3 (fun _ => chars "RESET-TIME") (fun _ => [])
        (chars "u") (chars "r") none
        (.resp 403 ⟨none, some (chars "0"), some (chars "1700000000")⟩
          (.eventsArr [])) =
      (chars "GitHub API rate limit exceeded. Resets at RESET-TIME", []) := by
  decide

/-- Claim C6 (amended): a non-ok response is classified as rate
exhaustion exactly when the status is `403` and the remaining-quota
header is the string `"0"`; that path returns the user-facing message
carrying the reset time but stores nothing in the cache, and any other
non-ok response yields the generic API-error message, also uncached. -/
theorem c6_rate_limit_classification (localeD : Option Int → List Char)
    (fmt : Event → List Char) (user repo : List Char) (status : Nat)
    (hdrs : RlHeaders) (body : V3Body)
    (hok : ¬ (200 ≤ status ∧ status ≤ 299)) :
    (hdrs.remaining = some (chars "0") → status = 403 →
      fetchEvents_v3 localeD fmt user repo none (.resp status hdrs body) =
        (chars "GitHub API rate limit exceeded. Resets at " ++
          localeD (jsResetMs hdrs.reset), [])) ∧
    (¬ (status = 403 ∧ hdrs.remaining = some (chars "0")) →
      fetchEvents_v3 localeD fmt user repo none (.resp status hdrs body) =
        (chars "Error fetching GitHub events: GitHub API error: " ++
          natToChars status, [])) := by
  constructor
  · intro hrem hstat
    subst hstat
    simp [fetchEvents_v3, hrem]
  · intro hnot
    simp only [fetchEvents_v3]
    rw [if_pos hok, if_neg hnot]

/-- Claim C6 witness: the amended classification at a concrete `403`
with remaining `"0"` and an absent reset header. -/
theorem c6_rate_limit_classification_witness :
    fetchEvents_v3 (fun _ => chars "T") (fun _ => []) (chars "u") (chars "r")
        none (.resp 403 ⟨none, some (chars "0"), none⟩ (.eventsArr [])) =
      (chars "GitHub API rate limit exceeded. Resets at " ++
        (fun _ => chars "T") (jsResetMs (⟨none, some (chars "0"), none⟩ :
          RlHeaders).reset), []) :=
  (c6_rate_limit_classification (fun _ => chars "T") (fun _ => [])
    (chars "u") (chars "r") 403 ⟨none, some (chars "0"), none⟩
    (.eventsArr []) (by decide)).1 rfl rfl

/-- Claim C7 counterexample: the third version's `fetchEvents` answers
a network failure with a bare `Error fetching GitHub events: …` string
that carries no header block (every header the program generates
begins with `## `), so “every failure path returns a header block plus
a literal error description” is false of the code. -/
theorem c7_error_without_header_counterexample :
    fetchEvents_v3 (fun _ => []) (fun _ => []) (chars "u") (chars "r") none
        (.netFail (chars "boom")) =
      (chars "Error fetching GitHub events: boom", []) ∧
    prefChk (chars "## ") (chars "Error fetching GitHub events: boom") =
      false := by
  decide

/-- Claim C7 (amended): neither version's `fetchEvents` can throw (both
are total text-producing functions), no failure result is ever written
to the cache, and the failure text is `header ++ "Error: " ++ message`
in the second version but a bare `Error fetching GitHub events: …`
string (no header) in the third — including its non-ok-status and
malformed-body paths. -/
theorem c7_failures_uncached (localeDate : Int → List Char)
    (localeD : Option Int → List Char) (fmt : Event → List Char)
    (user repo msg : List Char) (start stop : Option (List Char))
    (status : Nat) (hdrs : RlHeaders) (body : V3Body)
    (hok : ¬ (200 ≤ status ∧ status ≤ 299))
    (hrl : ¬ (status = 403 ∧ hdrs.remaining = some (chars "0"))) :
    fetchEvents_v2 localeDate fmt user repo start stop none (.netErr msg) =
      (formatHeader localeDate user repo start stop ++ chars "Error: " ++ msg,
        []) ∧
    fetchEvents_v2 localeDate fmt user repo start stop none (.badJson msg) =
      (formatHeader localeDate user repo start stop ++ chars "Error: " ++ msg,
        []) ∧
    fetchEvents_v3 localeD fmt user repo none (.netFail msg) =
      (chars "Error fetching GitHub events: " ++ msg, []) ∧
    fetchEvents_v3 localeD fmt user repo none (.resp status hdrs body) =
      (chars "Error fetching GitHub events: GitHub API error: " ++
        natToChars status, []) ∧
    fetchEvents_v3 localeD fmt user repo none (.resp 200 hdrs (.bad msg)) =
      (chars "Error fetching GitHub events: " ++ msg, []) := by
  refine ⟨rfl, rfl, rfl, ?_, ?_⟩
  · simp only [fetchEvents_v3]
    rw [if_pos hok, if_neg hrl]
  · simp only [fetchEvents_v3]
    rw [if_neg (by norm_num)]

/-- Claim C7 witness: the amended failure shapes at concrete inputs
(`500` status, empty headers, message `"m"`). -/
theorem c7_failures_uncached_witness :
    fetchEvents_v2 (fun _ => []) (fun _ => []) (chars "u") (chars "r")
        none none none (.netErr (chars "m")) =
      (formatHeader (fun _ => []) (chars "u") (chars "r") none none ++
        chars "Error: " ++ chars "m", []) ∧
    fetchEvents_v2 (fun _ => []) (fun _ => []) (chars "u") (chars "r")
        none none none (.badJson (chars "m")) =
      (formatHeader (fun _ => []) (chars "u") (chars "r") none none ++
        chars "Error: " ++ chars "m", []) ∧
    fetchEvents_v3 (fun _ => []) (fun _ => []) (chars "u") (chars "r") none
        (.netFail (chars "m")) =
      (chars "Error fetching GitHub events: " ++ chars "m", []) ∧
    fetchEvents_v3 (fun _ => []) (fun _ => []) (chars "u") (chars "r") none
        (.resp 500 ⟨none, none, none⟩ (.eventsArr [])) =
      (chars "Error fetching GitHub events: GitHub API error: " ++
        natToChars 500, []) ∧
    fetchEvents_v3 (fun _ => []) (fun _ => []) (chars "u") (chars "r") none
        (.resp 200 ⟨none, none, none⟩ (.bad (chars "m"))) =
      (chars "Error fetching GitHub events: " ++ chars "m", []) :=
  c7_failures_uncached (fun _ => []) (fun _ => []) (fun _ => [])
    (chars "u") (chars "r") (chars "m") none none 500 ⟨none, none, none⟩
    (.eventsArr []) (by decide) (by decide)

/-- Claim C8: when the fetched events all fall outside the configured
range, the second version's `fetchEvents` returns the generated header
followed by the literal no-events message, and writes exactly that
text to the cache under the query's key. -/
theorem c8_no_events_cached (localeDate : Int → List Char)
    (fmt : Event → List Char) (user repo : List Char)
    (start stop : Option (List Char)) (events : List Event)
    (hfilter : filterInline events start stop = []) :
    fetchEvents_v2 localeDate fmt user repo start stop none
        (.goodJson events) =
      (formatHeader localeDate user repo start stop ++
        chars "No events found in specified date range",
       [(getCacheKey user repo start stop,
         formatHeader localeDate user repo start stop ++
           chars "No events found in specified date range")]) := by
  simp [fetchEvents_v2, hfilter]

/-- Claim C8 witness: a single 1970 event filtered away by a 2025
start bound produces the cached no-events answer. -/
theorem c8_no_events_cached_witness :
    fetchEvents_v2 (fun _ => []) (fun _ => []) (chars "u") (chars "r")
        (some (chars "2025/01/18")) none none (.goodJson [⟨0⟩]) =
      (formatHeader (fun _ => []) (chars "u") (chars "r")
          (some (chars "2025/01/18")) none ++
        chars "No events found in specified date range",
       [(getCacheKey (chars "u") (chars "r") (some (chars "2025/01/18")) none,
         formatHeader (fun _ => []) (chars "u") (chars "r")
             (some (chars "2025/01/18")) none ++
           chars "No events found in specified date range")]) :=
  c8_no_events_cached (fun _ => []) (fun _ => []) (chars "u") (chars "r")
    (some (chars "2025/01/18")) none [⟨0⟩] (by decide)

/-- Claim C9: a document holding two directive blocks with identical
raw text has **both** occurrences replaced by the corresponding
rendered outputs — each result's single-occurrence `replace` consumes
one occurrence in order.  The occurrence hypotheses say the two raw
blocks are located where the decomposition exhibits them. -/
theorem c9_both_occurrences_replaced (A B C raw ev₁ ev₂ : List Char)
    (hraw : raw ≠ []) (he₁ : ev₁ ≠ []) (he₂ : ev₂ ≠ [])
    (h₁ : ∀ i < A.length,
      prefChk raw ((A ++ raw ++ (B ++ raw ++ C)).drop i) = false)
    (h₂ : ∀ i < (A ++ ev₁ ++ B).length,
      prefChk raw (((A ++ ev₁ ++ B) ++ raw ++ C).drop i) = false) :
    applyResults (A ++ raw ++ (B ++ raw ++ C)) [(raw, ev₁), (raw, ev₂)] =
      A ++ ev₁ ++ (B ++ ev₂ ++ C) := by
  have step₁ : jsReplaceFirst (A ++ raw ++ (B ++ raw ++ C)) raw ev₁ =
      (A ++ ev₁ ++ B) ++ raw ++ C := by
    unfold jsReplaceFirst
    rw [splitFirst_firstOccurrence raw A (B ++ raw ++ C) hraw h₁]
    simp [List.append_assoc]
  have step₂ : jsReplaceFirst ((A ++ ev₁ ++ B) ++ raw ++ C) raw ev₂ =
      A ++ ev₁ ++ (B ++ ev₂ ++ C) := by
    unfold jsReplaceFirst
    rw [splitFirst_firstOccurrence raw (A ++ ev₁ ++ B) C hraw h₂]
    simp [List.append_assoc]
  unfold applyResults
  simp only [List.foldl]
  rw [if_pos ⟨he₂, hraw⟩, if_pos ⟨he₁, hraw⟩, step₁, step₂]

/-- Claim C9 witness: both copies of `RAW` inside
`xx RAW yy RAW zz` are replaced, by their respective outputs. -/
theorem c9_both_occurrences_replaced_witness :
    applyResults
        (chars "xx" ++ chars "RAW" ++ (chars "yy" ++ chars "RAW" ++ chars "zz"))
        [(chars "RAW", chars "OUT1"), (chars "RAW", chars "OUT2")] =
      chars "xx" ++ chars "OUT1" ++ (chars "yy" ++ chars "OUT2" ++ chars "zz") :=
  c9_both_occurrences_replaced (chars "xx") (chars "yy") (chars "zz")
    (chars "RAW") (chars "OUT1") (chars "OUT2")
    (by decide) (by decide) (by decide) (by decide) (by decide)

/-- Claim C10: a directive line with at least one colon binds the
trimmed text before the first colon to the trimmed text between the
first and second colon only — everything after the second colon is
discarded — provided both are non-empty, and a line with no colon, an
empty key or an empty value leaves the configuration record
unchanged. -/
theorem c10_directive_line (cfg : List (List Char × List Char))
    (line : List Char) :
    (∀ p₀ p₁ rest, splitOnChar ':' line = p₀ :: p₁ :: rest →
      applyDirectiveLine cfg line =
        if trimChars p₀ ≠ [] ∧ trimChars p₁ ≠ [] then
          setConfig cfg (trimChars p₀) (trimChars p₁)
        else cfg) ∧
    (∀ p₀, splitOnChar ':' line = [p₀] → applyDirectiveLine cfg line = cfg) := by
  constructor
  · intro p₀ p₁ rest hsplit
    simp only [applyDirectiveLine, parseDirectiveLine, hsplit, List.map_cons]
    split_ifs with hkv <;> rfl
  · intro p₀ hsplit
    simp only [applyDirectiveLine, parseDirectiveLine, hsplit, List.map_cons,
      List.map_nil]

/-- Claim C10 witness: `url:https://example.com` binds `url` to `https`
(the text after the second colon is dropped), and a colon-free line
changes nothing. -/
theorem c10_directive_line_witness :
    applyDirectiveLine [] (chars "url:https://example.com") =
      [(chars "url", chars "https")] ∧
    applyDirectiveLine [(chars "limit", chars "50")] (chars "no colon here") =
      [(chars "limit", chars "50")] := by
  constructor
  · have h := (c10_directive_line [] (chars "url:https://example.com")).1
      (chars "url") (chars "https") [chars "//example.com"] (by decide)
    rw [h]
    decide
  · exact (c10_directive_line [(chars "limit", chars "50")]
      (chars "no colon here")).2 (chars "no colon here") (by decide)

end Tracker
